import Mathlib

/-!
Shallow embedding of the core simulation logic of the single-file arcade
game (source: src/unnamed/part_000, a React/canvas component).  Numeric
values are modelled over ℚ; JavaScript numbers are IEEE doubles, but every
constant and every operation relevant to the claims below is exact in ℚ.
Randomness (Math.random draws) is modelled by explicit parameters.
-/

namespace BtcGame

/-! Game constants, copied from the constant block at the top of the source. -/

def GAME_WIDTH : ℚ := 800
def GAME_HEIGHT : ℚ := 600
def GATE_SPEED : ℚ := 253/100
def DIFFICULTY_INCREASE : ℚ := 1/10
def DIFFICULTY_GATE_THRESHOLD : ℕ := 15
def BTC_SPEED_BOOST : ℚ := 11/10
def SOL_SPEED_BOOST : ℚ := 2
def GATE_WIDTH : ℚ := 50
def INITIAL_GATE_GAP : ℚ := 150
def NARROW_GATE_GAP : ℚ := 120
def GATE_GAP_INCREASE_PERCENT : ℚ := 50
def LINE_X_POSITION : ℚ := 100
def BOUNCE_VELOCITY : ℚ := -11/2
def GRAVITY : ℚ := 11/50
def TOKEN_COLLECTION_RADIUS : ℚ := 50
def BCH_CHAOS_DURATION : ℚ := 3000
def SOL_EFFECT_DURATION : ℚ := 5000

/-- Token kinds, in the declaration order of the source enumeration. -/
inductive TokenType where
  | NONE
  | BTC
  | ETH
  | TAO
  | BCH
  | HBAR
  | SOL
  deriving DecidableEq, Repr

/-- A gated obstacle, mirroring the `Gate` interface of the source. -/
structure Gate where
  x : ℚ
  topHeight : ℚ
  hasPassed : Bool
  tokenType : TokenType
  baseGateGap : ℚ
  isFlashing : Bool
  deriving DecidableEq, Repr

/-- An active effect entry, mirroring the `TokenEffect` interface. -/
structure TokenEffect where
  type : TokenType
  endTime : ℚ
  deriving DecidableEq, Repr

/-! Section: Out-of-bounds check (gameLoop, `if (lineY < 0 || lineY > GAME_HEIGHT)`) -/

/-- The game-over bounds test of the frame loop. -/
def outOfBounds (lineY : ℚ) : Bool :=
  decide (lineY < 0) || decide (lineY > GAME_HEIGHT)

/-! Section: Impulse input (`handleInput`) -/

/-- The frame-local player variables written by the input handler. -/
structure PlayerInputState where
  lineVelocity : ℚ
  isAscending : Bool
  deriving DecidableEq, Repr

/-- The impulse handler: unconditionally sets the velocity to the bounce
constant and marks the player ascending. -/
def handleInput (s : PlayerInputState) : PlayerInputState :=
  { s with lineVelocity := BOUNCE_VELOCITY, isAscending := true }

/-! Section: Effective gap (gameLoop, `actualGateGap` computation) -/

/-- The effective gap of a gate for the current frame: the base gap,
widened by `GATE_GAP_INCREASE_PERCENT` while the BTC effect is active. -/
def actualGateGap (gate : Gate) (btcEffectActive : Bool) : ℚ :=
  if btcEffectActive then gate.baseGateGap * (1 + GATE_GAP_INCREASE_PERCENT / 100)
  else gate.baseGateGap

/-! Section: Obstacle collision (gameLoop, gate overlap and boundary tests) -/

/-- The per-gate collision decision of the frame loop: tested only while the
gate's horizontal span overlaps the line's fixed x position, suppressed
entirely while the SOL effect is active, and otherwise failing when the line
is at or above the top boundary or at or below the bottom boundary of the
effective gap. -/
def gateCollision (lineY : ℚ) (gate : Gate) (gap : ℚ) (solEffectActive : Bool) : Bool :=
  if gate.x ≤ LINE_X_POSITION ∧ LINE_X_POSITION ≤ gate.x + GATE_WIDTH then
    if solEffectActive then false
    else decide (lineY ≤ gate.topHeight) || decide (lineY ≥ gate.topHeight + gap)
  else false

/-! Section: Best-ever token counts (gameLoop, game-over bookkeeping) -/

/-- One run-end update of the persisted best-ever counts: each kind is
overwritten exactly when the ending run's count is strictly higher. -/
def updateHighestCounts (current highest : TokenType → ℕ) : TokenType → ℕ :=
  fun t => if current t > highest t then current t else highest t

/-- Best-ever counts after a sequence of run-end transitions, each carrying
that run's final per-kind counts. -/
def highestAfterRuns (runs : List (TokenType → ℕ)) (init : TokenType → ℕ) : TokenType → ℕ :=
  runs.foldl (fun highest current => updateHighestCounts current highest) init

/-! Section: Difficulty schedule (gameLoop, passage counting block) -/

/-- The frame-loop variables driving the difficulty rule. -/
structure DiffState where
  gatesPassed : ℕ
  difficultyLevel : ℕ
  baseSpeed : ℚ
  deriving DecidableEq, Repr

/-- Initial difficulty variables of a run (`gatesPassed = 0`,
`difficultyLevel = 1`, `baseSpeed = GATE_SPEED`). -/
def initDiffState : DiffState :=
  { gatesPassed := 0, difficultyLevel := 1, baseSpeed := GATE_SPEED }

/-- The source's base-speed formula at a given difficulty level:
`GATE_SPEED * (1 + (difficultyLevel - 1) * DIFFICULTY_INCREASE)`. -/
def baseSpeedFor (difficultyLevel : ℕ) : ℚ :=
  GATE_SPEED * (1 + ((difficultyLevel : ℚ) - 1) * DIFFICULTY_INCREASE)

/-- One passage event: the counter increments, and when it reaches a
multiple of `DIFFICULTY_GATE_THRESHOLD` the level increments and the base
speed is recomputed from `GATE_SPEED`. -/
def recordPassage (s : DiffState) : DiffState :=
  if (s.gatesPassed + 1) % DIFFICULTY_GATE_THRESHOLD = 0 then
    { gatesPassed := s.gatesPassed + 1, difficultyLevel := s.difficultyLevel + 1,
      baseSpeed := baseSpeedFor (s.difficultyLevel + 1) }
  else
    { s with gatesPassed := s.gatesPassed + 1 }

/-- Difficulty variables after `n` passages of a run. -/
def afterPassages : ℕ → DiffState
  | 0 => initDiffState
  | n + 1 => recordPassage (afterPassages n)

/-! Section: Token-kind selection (`getRandomTokenType`) -/

/-- The pool built by `getRandomTokenType`: every non-none kind, in
enumeration order, except the kind of the immediately preceding spawn. -/
def possibleTokens (lastTokenType : TokenType) : List TokenType :=
  (if lastTokenType = TokenType.BTC then [] else [TokenType.BTC]) ++
  (if lastTokenType = TokenType.ETH then [] else [TokenType.ETH]) ++
  (if lastTokenType = TokenType.TAO then [] else [TokenType.TAO]) ++
  (if lastTokenType = TokenType.BCH then [] else [TokenType.BCH]) ++
  (if lastTokenType = TokenType.HBAR then [] else [TokenType.HBAR]) ++
  (if lastTokenType = TokenType.SOL then [] else [TokenType.SOL])

/-- `getRandomTokenType`: with the 25% roll below 1/4 a kind is picked from
the pool by a uniform index (the source's `Math.floor(Math.random() * len)`,
modelled as an arbitrary index reduced mod the pool length); otherwise, or
when the pool is empty, no token is attached. -/
def getRandomTokenType (lastTokenType : TokenType) (tokenRoll : ℚ) (idx : ℕ) : TokenType :=
  if tokenRoll < 1/4 then
    if h : 0 < (possibleTokens lastTokenType).length then
      (possibleTokens lastTokenType).get
        ⟨idx % (possibleTokens lastTokenType).length, Nat.mod_lt idx h⟩
    else TokenType.NONE
  else TokenType.NONE

/-- The token kinds of a sequence of spawns, threading `lastTokenType`
exactly as the spawning code does (each spawn's result, none included,
becomes the next spawn's excluded kind). -/
def tokenSeq : TokenType → List (ℚ × ℕ) → List TokenType
  | _, [] => []
  | lastTokenType, draw :: rest =>
    getRandomTokenType lastTokenType draw.1 draw.2 ::
      tokenSeq (getRandomTokenType lastTokenType draw.1 draw.2) rest

/-! Section: Effect processing (`processEffects`) -/

/-- The frame-local variables reset and rewritten by `processEffects`. -/
structure EffectsOut where
  currentSpeed : ℚ
  isGoldMode : Bool
  flashingGates : Bool
  btcEffectActive : Bool
  solEffectActive : Bool
  lineVelocity : ℚ
  deriving DecidableEq, Repr

/-- One iteration of the effect loop's switch statement. -/
def applyOneEffect (baseSpeed : ℚ) (st : EffectsOut) (e : TokenEffect) : EffectsOut :=
  match e.type with
  | TokenType.ETH => { st with currentSpeed := baseSpeed * (1/2) }
  | TokenType.TAO => { st with flashingGates := true }
  | TokenType.HBAR => { st with isGoldMode := true }
  | TokenType.BTC => { st with btcEffectActive := true, currentSpeed := baseSpeed * BTC_SPEED_BOOST }
  | TokenType.SOL => { st with solEffectActive := true, currentSpeed := baseSpeed * SOL_SPEED_BOOST,
                               lineVelocity := 0 }
  | _ => st

/-- `processEffects`: drop expired effects, reset the derived variables to
baseline, then apply the remaining effects in list order.  Returns the
surviving effect list and the rewritten frame variables. -/
def processEffects (timestamp : ℚ) (activeEffects : List TokenEffect)
    (baseSpeed lineVelocity : ℚ) : List TokenEffect × EffectsOut :=
  let remaining := activeEffects.filter (fun e => decide (e.endTime > timestamp))
  let st0 : EffectsOut :=
    { currentSpeed := baseSpeed, isGoldMode := false, flashingGates := false,
      btcEffectActive := false, solEffectActive := false, lineVelocity := lineVelocity }
  (remaining, remaining.foldl (applyOneEffect baseSpeed) st0)

/-- Whether a kind's effect rewrites `currentSpeed` in the effect loop. -/
def isSpeedEffect (t : TokenType) : Bool :=
  t = TokenType.ETH || t = TokenType.BTC || t = TokenType.SOL

/-- The speed each speed-affecting kind sets (baseline for the others). -/
def speedOf (baseSpeed : ℚ) : TokenType → ℚ
  | TokenType.ETH => baseSpeed * (1/2)
  | TokenType.BTC => baseSpeed * BTC_SPEED_BOOST
  | TokenType.SOL => baseSpeed * SOL_SPEED_BOOST
  | _ => baseSpeed

/-! Section: Velocity update of one frame (gameLoop, lines between the
`processEffects` call and `lineY += lineVelocity`) -/

/-- The vertical velocity actually integrated into the position this frame:
the velocity as rewritten by `processEffects`, plus gravity unless the SOL
effect is active, plus the chaos perturbation `(chaosRand - 0.5) * 2` while
chaos mode is armed and unexpired. -/
def velocityAtIntegration (timestamp : ℚ) (activeEffects : List TokenEffect)
    (baseSpeed lineVelocity : ℚ) (chaosMode : Bool) (chaosModeEndTime chaosRand : ℚ) : ℚ :=
  let st := (processEffects timestamp activeEffects baseSpeed lineVelocity).2
  let v1 := if st.solEffectActive then st.lineVelocity else st.lineVelocity + GRAVITY
  if chaosMode && decide (timestamp < chaosModeEndTime) then v1 + (chaosRand - 1/2) * 2
  else v1

/-! Section: Token collection (gameLoop, token pickup block) -/

/-- The result of one per-gate token-pickup test. -/
structure CollectOutcome where
  gate : Gate
  counts : TokenType → ℕ
  collected : Bool

/-- The token-pickup test of the frame loop: when the gate carries a token
and the line is strictly within the collection radius of the token's center
(opening start plus half the effective gap), the gate's token is cleared and
the collected kind's run counter increments by one. -/
def tryCollectToken (gate : Gate) (lineY gap : ℚ) (counts : TokenType → ℕ) : CollectOutcome :=
  if gate.tokenType ≠ TokenType.NONE ∧ |lineY - (gate.topHeight + gap / 2)| < TOKEN_COLLECTION_RADIUS then
    { gate := { gate with tokenType := TokenType.NONE }
      counts := fun t => if t = gate.tokenType then counts t + 1 else counts t
      collected := true }
  else
    { gate := gate, counts := counts, collected := false }

/-! Section: Shared concrete inputs and helper lemmas -/

/-- A concrete gate used to instantiate proved properties. -/
def sampleGate : Gate :=
  { x := 100, topHeight := 200, hasPassed := false, tokenType := TokenType.BTC,
    baseGateGap := 150, isFlashing := false }

theorem highest_le_update (current highest : TokenType → ℕ) (t : TokenType) :
    highest t ≤ updateHighestCounts current highest t := by
  unfold updateHighestCounts
  split <;> omega

theorem handleInput_iterate_succ (s : PlayerInputState) :
    ∀ n : ℕ, handleInput^[n + 1] s = handleInput s := by
  intro n
  induction n with
  | zero => simp
  | succ k ih =>
    rw [Function.iterate_succ_apply', ih]
    rfl

theorem afterPassages_baseSpeed_eq (n : ℕ) :
    (afterPassages n).baseSpeed = baseSpeedFor (afterPassages n).difficultyLevel := by
  induction n with
  | zero =>
    show GATE_SPEED = baseSpeedFor 1
    norm_num [baseSpeedFor]
  | succ k ih =>
    have hk : afterPassages (k + 1) = recordPassage (afterPassages k) := rfl
    rw [hk]
    unfold recordPassage
    split
    · rfl
    · exact ih

theorem afterPassages_level_le_succ (n : ℕ) :
    (afterPassages n).difficultyLevel ≤ (afterPassages (n + 1)).difficultyLevel := by
  show (afterPassages n).difficultyLevel ≤ (recordPassage (afterPassages n)).difficultyLevel
  unfold recordPassage
  split
  · simp
  · simp

theorem baseSpeedFor_mono {a b : ℕ} (h : a ≤ b) : baseSpeedFor a ≤ baseSpeedFor b := by
  have hab : (a : ℚ) ≤ (b : ℚ) := by exact_mod_cast h
  simp only [baseSpeedFor, GATE_SPEED, DIFFICULTY_INCREASE]
  linarith

theorem afterPassages_baseSpeed_mono : Monotone fun n => (afterPassages n).baseSpeed := by
  apply monotone_nat_of_le_succ
  intro n
  rw [afterPassages_baseSpeed_eq n, afterPassages_baseSpeed_eq (n + 1)]
  exact baseSpeedFor_mono (afterPassages_level_le_succ n)

theorem mem_possibleTokens (lastTokenType t : TokenType) :
    t ∈ possibleTokens lastTokenType ↔ (t ≠ TokenType.NONE ∧ t ≠ lastTokenType) := by
  cases lastTokenType <;> cases t <;> simp [possibleTokens]

theorem getRandomTokenType_mem_or_none (lastTokenType : TokenType) (tokenRoll : ℚ) (idx : ℕ) :
    getRandomTokenType lastTokenType tokenRoll idx = TokenType.NONE ∨
    getRandomTokenType lastTokenType tokenRoll idx ∈ possibleTokens lastTokenType := by
  unfold getRandomTokenType
  split
  · split
    · right
      exact List.get_mem _ _ _
    · left
      rfl
  · left
    rfl

theorem getRandomTokenType_ne_last (lastTokenType : TokenType) (tokenRoll : ℚ) (idx : ℕ)
    (h : getRandomTokenType lastTokenType tokenRoll idx ≠ TokenType.NONE) :
    getRandomTokenType lastTokenType tokenRoll idx ≠ lastTokenType := by
  rcases getRandomTokenType_mem_or_none lastTokenType tokenRoll idx with hn | hm
  · exact absurd hn h
  · exact ((mem_possibleTokens lastTokenType _).1 hm).2

theorem possibleTokens_nodup (lastTokenType : TokenType) :
    (possibleTokens lastTokenType).Nodup := by
  cases lastTokenType <;> decide

theorem tokenSeq_chain (lastTokenType : TokenType) (draws : List (ℚ × ℕ)) :
    List.Chain' (fun a b => b ≠ TokenType.NONE → b ≠ a)
      (lastTokenType :: tokenSeq lastTokenType draws) := by
  induction draws generalizing lastTokenType with
  | nil => simp [tokenSeq]
  | cons d rest ih =>
    rw [tokenSeq, List.chain'_cons]
    exact ⟨fun hne => getRandomTokenType_ne_last lastTokenType d.1 d.2 hne, ih _⟩

/-- An effect-processing state in which the SOL effect has been seen: the
SOL flag is set and the velocity has been zeroed. -/
def SolZeroed (st : EffectsOut) : Prop :=
  st.solEffectActive = true ∧ st.lineVelocity = 0

theorem applyOneEffect_solZeroed (baseSpeed : ℚ) (st : EffectsOut) (e : TokenEffect)
    (h : SolZeroed st) : SolZeroed (applyOneEffect baseSpeed st e) := by
  obtain ⟨t, endTime⟩ := e
  cases t <;> first | exact h | exact ⟨rfl, rfl⟩

theorem foldl_solZeroed (baseSpeed : ℚ) :
    ∀ (l : List TokenEffect) (st : EffectsOut), SolZeroed st →
      SolZeroed (l.foldl (applyOneEffect baseSpeed) st)
  | [], _, h => h
  | e :: l, st, h =>
    foldl_solZeroed baseSpeed l (applyOneEffect baseSpeed st e)
      (applyOneEffect_solZeroed baseSpeed st e h)

theorem foldl_solZeroed_of_mem (baseSpeed : ℚ) :
    ∀ (l : List TokenEffect) (st : EffectsOut),
      (∃ e ∈ l, e.type = TokenType.SOL) →
      SolZeroed (l.foldl (applyOneEffect baseSpeed) st) := by
  intro l
  induction l with
  | nil =>
    intro st h
    obtain ⟨e, he, _⟩ := h
    cases he
  | cons a l ih =>
    intro st h
    obtain ⟨e, he, hsol⟩ := h
    rw [List.foldl_cons]
    rcases List.mem_cons.1 he with rfl | hmem
    · apply foldl_solZeroed
      obtain ⟨t, endTime⟩ := e
      cases hsol
      exact ⟨rfl, rfl⟩
    · exact ih (applyOneEffect baseSpeed st a) ⟨e, hmem, hsol⟩

theorem foldl_currentSpeed (baseSpeed : ℚ) (l : List TokenEffect) :
    ∀ st : EffectsOut,
      (l.foldl (applyOneEffect baseSpeed) st).currentSpeed =
        ((l.filter fun e => isSpeedEffect e.type).getLast?).elim st.currentSpeed
          (fun e => speedOf baseSpeed e.type) := by
  induction l using List.reverseRecOn with
  | nil => intro st; rfl
  | append_singleton l e ih =>
    intro st
    obtain ⟨t, endTime⟩ := e
    rw [List.foldl_append, List.foldl_cons, List.foldl_nil, List.filter_append]
    cases t <;>
      simp [applyOneEffect, isSpeedEffect, speedOf, List.getLast?_concat, ih st]

/-! Section: Claim theorems -/

/-- Claim C1: the base speed stays at the initial `GATE_SPEED` through the
14th passage, becomes exactly `GATE_SPEED * 1.1` on the 15th passage (when
the counter first hits the threshold and the level increments), and is
monotonically non-decreasing over the whole run, never reset. -/
theorem c1_difficulty_speed_schedule :
    (∀ n : ℕ, n ≤ 14 → (afterPassages n).baseSpeed = GATE_SPEED) ∧
    (afterPassages 15).baseSpeed = GATE_SPEED * (11/10) ∧
    (∀ m n : ℕ, m ≤ n → (afterPassages m).baseSpeed ≤ (afterPassages n).baseSpeed) := by
  refine ⟨?_, ?_, ?_⟩
  · intro n hn
    interval_cases n <;> rfl
  · have h15 : (afterPassages 15).baseSpeed = baseSpeedFor 2 := rfl
    rw [h15]
    norm_num [baseSpeedFor, GATE_SPEED, DIFFICULTY_INCREASE]
  · intro m n h
    exact afterPassages_baseSpeed_mono h

/-- Witness for C1: speed unchanged at the 14th passage, monotone from the
5th to the 20th. -/
theorem c1_difficulty_speed_schedule_witness :
    (afterPassages 14).baseSpeed = GATE_SPEED ∧
    (afterPassages 5).baseSpeed ≤ (afterPassages 20).baseSpeed :=
  ⟨c1_difficulty_speed_schedule.1 14 (by norm_num),
   c1_difficulty_speed_schedule.2.2 5 20 (by norm_num)⟩

/-- Claim C4: a non-none spawned kind is never the immediately preceding
spawn's kind; the selection pool is exactly the non-none kinds other than
the preceding spawn's kind, without duplicates (so the uniform index draws
uniformly over exactly those kinds); after a no-token spawn nothing is
excluded; and over any spawn sequence no non-none kind repeats on two
consecutive spawns. -/
theorem c4_token_no_immediate_repeat :
    (∀ (lastTokenType : TokenType) (tokenRoll : ℚ) (idx : ℕ),
      getRandomTokenType lastTokenType tokenRoll idx ≠ TokenType.NONE →
        getRandomTokenType lastTokenType tokenRoll idx ≠ lastTokenType) ∧
    (∀ lastTokenType t : TokenType,
      t ∈ possibleTokens lastTokenType ↔ (t ≠ TokenType.NONE ∧ t ≠ lastTokenType)) ∧
    (∀ lastTokenType : TokenType, (possibleTokens lastTokenType).Nodup) ∧
    possibleTokens TokenType.NONE =
      [TokenType.BTC, TokenType.ETH, TokenType.TAO,
       TokenType.BCH, TokenType.HBAR, TokenType.SOL] ∧
    (∀ (lastTokenType : TokenType) (draws : List (ℚ × ℕ)),
      List.Chain' (fun a b => b ≠ TokenType.NONE → b ≠ a)
        (lastTokenType :: tokenSeq lastTokenType draws)) :=
  ⟨getRandomTokenType_ne_last, mem_possibleTokens, possibleTokens_nodup, rfl, tokenSeq_chain⟩

/-- Witness for C4: after a BTC spawn, a roll of 0 with index 0 selects a
non-none kind and it is not BTC. -/
theorem c4_token_no_immediate_repeat_witness :
    getRandomTokenType TokenType.BTC 0 0 ≠ TokenType.BTC :=
  c4_token_no_immediate_repeat.1 TokenType.BTC 0 0
    (by norm_num [getRandomTokenType, possibleTokens]; decide)

/-- Claim C2, as stated, fails: with the SOL (frictionless) effect active
for its full 5000 ms window, a frame in which chaos mode is also armed
(here with a random draw of 3/4) integrates a non-zero velocity. -/
theorem c2_counterexample :
    ({ type := TokenType.SOL, endTime := 5000 : TokenEffect } ∈
      (processEffects 0 [{ type := TokenType.SOL, endTime := 5000 }] GATE_SPEED 3).1) ∧
    velocityAtIntegration 0 [{ type := TokenType.SOL, endTime := 5000 }]
      GATE_SPEED 3 true 1000 (3/4) ≠ 0 := by
  constructor
  · norm_num [processEffects]
  · norm_num [velocityAtIntegration, processEffects, applyOneEffect]

/-- Claim C2, amended: in every frame during the 5000 ms window of an
active SOL (frictionless) effect, the velocity integrated that frame is
exactly zero — gravity is fully overridden — unless chaos mode is
simultaneously armed and unexpired, in which case exactly the chaos
perturbation remains (still with no gravity contribution). -/
theorem c2_sol_zero_velocity_amended (timestamp : ℚ) (activeEffects : List TokenEffect)
    (baseSpeed lineVelocity : ℚ) (chaosMode : Bool) (chaosModeEndTime chaosRand t0 : ℚ)
    (hmem : ({ type := TokenType.SOL, endTime := t0 + SOL_EFFECT_DURATION : TokenEffect }
      ∈ activeEffects))
    (hts : timestamp < t0 + SOL_EFFECT_DURATION) :
    velocityAtIntegration timestamp activeEffects baseSpeed lineVelocity chaosMode
        chaosModeEndTime chaosRand =
      if chaosMode && decide (timestamp < chaosModeEndTime) then (chaosRand - 1/2) * 2
      else 0 := by
  have hz : SolZeroed (processEffects timestamp activeEffects baseSpeed lineVelocity).2 := by
    apply foldl_solZeroed_of_mem
    exact ⟨_, List.mem_filter.2 ⟨hmem, by simpa using hts⟩, rfl⟩
  obtain ⟨hsol, hvel⟩ := hz
  simp only [velocityAtIntegration, hsol, hvel, if_true, zero_add]

/-- Witness for the amended C2 at a concrete frame with no chaos. -/
theorem c2_sol_zero_velocity_amended_witness :
    velocityAtIntegration 0 [{ type := TokenType.SOL, endTime := 0 + SOL_EFFECT_DURATION }]
      GATE_SPEED 3 false 0 0 = 0 :=
  c2_sol_zero_velocity_amended 0 _ GATE_SPEED 3 false 0 0 0 (by simp)
    (by norm_num [SOL_EFFECT_DURATION])

/-- Claim C3, as stated, fails: with the SOL and ETH effects both active
(SOL collected first), the frame's final speed is ETH's `baseSpeed * 0.5`,
not the speed set by SOL, the later member of the kind enumeration. -/
theorem c3_counterexample :
    (processEffects 0 [{ type := TokenType.SOL, endTime := 5000 },
        { type := TokenType.ETH, endTime := 5000 }] GATE_SPEED 0).2.currentSpeed
      = GATE_SPEED * (1/2) ∧
    (processEffects 0 [{ type := TokenType.SOL, endTime := 5000 },
        { type := TokenType.ETH, endTime := 5000 }] GATE_SPEED 0).2.currentSpeed
      ≠ GATE_SPEED * SOL_SPEED_BOOST := by
  constructor <;>
    norm_num [processEffects, applyOneEffect, GATE_SPEED, SOL_SPEED_BOOST]

/-- Claim C3, amended: the frame's final speed is the one set by the LAST
speed-affecting effect in the surviving active-effects list, in list
(collection) order — `baseSpeed` itself when no speed-affecting effect is
active. -/
theorem c3_last_speed_effect_wins (timestamp : ℚ) (activeEffects : List TokenEffect)
    (baseSpeed lineVelocity : ℚ) :
    (processEffects timestamp activeEffects baseSpeed lineVelocity).2.currentSpeed =
      ((((processEffects timestamp activeEffects baseSpeed lineVelocity).1).filter
          fun e => isSpeedEffect e.type).getLast?).elim baseSpeed
        (fun e => speedOf baseSpeed e.type) := by
  simp only [processEffects]
  exact foldl_currentSpeed baseSpeed _ _

/-- Claim C5: the out-of-bounds game-over test fires exactly when the
position is strictly negative or strictly greater than the playfield
height; the lower bound itself is safe, while exceeding it by any positive
amount is fatal, and any strictly negative position is fatal. -/
theorem c5_out_of_bounds_boundary :
    (∀ y : ℚ, outOfBounds y = true ↔ (y < 0 ∨ y > GAME_HEIGHT)) ∧
    outOfBounds GAME_HEIGHT = false ∧
    (∀ ε : ℚ, 0 < ε → outOfBounds (GAME_HEIGHT + ε) = true) ∧
    (∀ y : ℚ, y < 0 → outOfBounds y = true) := by
  refine ⟨?_, by decide, ?_, ?_⟩
  · intro y
    simp [outOfBounds]
  · intro ε hε
    simp [outOfBounds, GAME_HEIGHT]
    right
    linarith
  · intro y hy
    simp [outOfBounds]
    left
    exact hy

/-- Witness for C5 at concrete positions. -/
theorem c5_out_of_bounds_boundary_witness :
    outOfBounds (GAME_HEIGHT + 1) = true ∧ outOfBounds (-1) = true :=
  ⟨c5_out_of_bounds_boundary.2.2.1 1 (by norm_num),
   c5_out_of_bounds_boundary.2.2.2 (-1) (by norm_num)⟩

/-- Claim C7: the effective gap of a gate is never smaller than its base
gap, whether or not the widen-gap (BTC) effect is active. -/
theorem c7_effective_gap_ge_base (gate : Gate) (btcEffectActive : Bool)
    (h : 0 ≤ gate.baseGateGap) :
    gate.baseGateGap ≤ actualGateGap gate btcEffectActive := by
  cases btcEffectActive with
  | false => simp [actualGateGap]
  | true =>
    simp only [actualGateGap, GATE_GAP_INCREASE_PERCENT, if_pos]
    nlinarith

/-- Witness for C7 at a concrete gate. -/
theorem c7_effective_gap_ge_base_witness :
    sampleGate.baseGateGap ≤ actualGateGap sampleGate true :=
  c7_effective_gap_ge_base sampleGate true (by norm_num [sampleGate])

/-- Claim C8: at each run-end transition the persisted best-ever count of
every kind is non-decreasing, is overwritten only when the ending run's
count is strictly higher (to exactly that count), and stays non-decreasing
across any sequence of successive run-end transitions. -/
theorem c8_highest_counts_monotone :
    (∀ (current highest : TokenType → ℕ) (t : TokenType),
      highest t ≤ updateHighestCounts current highest t) ∧
    (∀ (current highest : TokenType → ℕ) (t : TokenType),
      updateHighestCounts current highest t ≠ highest t →
        highest t < current t ∧ updateHighestCounts current highest t = current t) ∧
    (∀ (runs : List (TokenType → ℕ)) (run init : TokenType → ℕ) (t : TokenType),
      highestAfterRuns runs init t ≤ highestAfterRuns (runs ++ [run]) init t) := by
  refine ⟨highest_le_update, ?_, ?_⟩
  · intro current highest t
    unfold updateHighestCounts
    split
    next hgt => exact fun _ => ⟨hgt, rfl⟩
    next _ => exact fun hne => absurd rfl hne
  · intro runs run init t
    have happ : highestAfterRuns (runs ++ [run]) init =
        updateHighestCounts run (highestAfterRuns runs init) := by
      simp [highestAfterRuns, List.foldl_append]
    rw [happ]
    exact highest_le_update run (highestAfterRuns runs init) t

/-- Witness for C8 at concrete counts. -/
theorem c8_highest_counts_monotone_witness :
    (3:ℕ) < 5 ∧ updateHighestCounts (fun _ => 5) (fun _ => 3) TokenType.BTC = 5 :=
  c8_highest_counts_monotone.2.1 (fun _ => 5) (fun _ => 3) TokenType.BTC (by decide)

/-- Claim C9: the impulse handler sets the velocity to the fixed bounce
constant unconditionally, so firing it any positive number of times within
one frame window leaves the player state identical to firing it once. -/
theorem c9_impulse_idempotent (s : PlayerInputState) (n : ℕ) (h : 1 ≤ n) :
    (handleInput s).lineVelocity = BOUNCE_VELOCITY ∧
    handleInput (handleInput s) = handleInput s ∧
    handleInput^[n] s = handleInput s := by
  obtain ⟨m, rfl⟩ : ∃ m, n = m + 1 := ⟨n - 1, by omega⟩
  exact ⟨rfl, rfl, handleInput_iterate_succ s m⟩

/-- Witness for C9: three firings end in the same state as one. -/
theorem c9_impulse_idempotent_witness :
    handleInput^[3] { lineVelocity := 7, isAscending := false } =
      handleInput { lineVelocity := 7, isAscending := false } :=
  (c9_impulse_idempotent { lineVelocity := 7, isAscending := false } 3 (by decide)).2.2

/-- Claim C10: while a gate's horizontal span overlaps the line's fixed x
position and the collision-suppressing SOL effect is inactive, positions
exactly on the top or bottom opening boundary of the effective gap collide
(the boundary comparisons are inclusive). -/
theorem c10_boundary_collision_inclusive (lineY : ℚ) (gate : Gate) (gap : ℚ)
    (hov : gate.x ≤ LINE_X_POSITION ∧ LINE_X_POSITION ≤ gate.x + GATE_WIDTH) :
    gateCollision gate.topHeight gate gap false = true ∧
    gateCollision (gate.topHeight + gap) gate gap false = true ∧
    (gateCollision lineY gate gap false = true ↔
      (lineY ≤ gate.topHeight ∨ gate.topHeight + gap ≤ lineY)) := by
  unfold gateCollision
  rw [if_pos hov, if_pos hov, if_pos hov]
  refine ⟨by simp, by simp, by simp⟩

/-- Witness for C10 at a concrete overlapping gate: boundary contact with
the top opening boundary collides. -/
theorem c10_boundary_collision_inclusive_witness :
    gateCollision sampleGate.topHeight sampleGate 150 false = true :=
  (c10_boundary_collision_inclusive 0 sampleGate 150
    ⟨by norm_num [sampleGate, LINE_X_POSITION],
     by norm_num [sampleGate, LINE_X_POSITION, GATE_WIDTH]⟩).1

/-- Claim C6: when a gate's token is collected (token present and line
strictly within the collection radius of the token's center), the same
frame clears the token, increments exactly the collected kind's run counter
by one, and a second pickup test on the resulting gate collects nothing and
leaves the counters untouched. -/
theorem c6_token_collected_once (gate : Gate) (lineY gap : ℚ) (counts : TokenType → ℕ)
    (hcond : gate.tokenType ≠ TokenType.NONE ∧
      |lineY - (gate.topHeight + gap / 2)| < TOKEN_COLLECTION_RADIUS) :
    (tryCollectToken gate lineY gap counts).collected = true ∧
    (tryCollectToken gate lineY gap counts).gate.tokenType = TokenType.NONE ∧
    (tryCollectToken gate lineY gap counts).counts gate.tokenType = counts gate.tokenType + 1 ∧
    (∀ t, t ≠ gate.tokenType → (tryCollectToken gate lineY gap counts).counts t = counts t) ∧
    (∀ (lineY2 gap2 : ℚ) (counts2 : TokenType → ℕ),
      (tryCollectToken (tryCollectToken gate lineY gap counts).gate lineY2 gap2 counts2).collected
        = false ∧
      (tryCollectToken (tryCollectToken gate lineY gap counts).gate lineY2 gap2 counts2).counts
        = counts2) := by
  have hmain : tryCollectToken gate lineY gap counts =
      { gate := { gate with tokenType := TokenType.NONE },
        counts := fun t => if t = gate.tokenType then counts t + 1 else counts t,
        collected := true } := by
    rw [tryCollectToken, if_pos hcond]
  rw [hmain]
  refine ⟨rfl, rfl, by simp, ?_, ?_⟩
  · intro t ht
    simp [ht]
  · intro lineY2 gap2 counts2
    rw [tryCollectToken, if_neg (by simp)]
    exact ⟨rfl, rfl⟩

/-- Witness for C6: collecting the BTC token of a concrete gate. -/
theorem c6_token_collected_once_witness :
    (tryCollectToken sampleGate 275 150 (fun _ => 0)).collected = true :=
  (c6_token_collected_once sampleGate 275 150 (fun _ => 0)
    ⟨by simp [sampleGate], by norm_num [sampleGate, TOKEN_COLLECTION_RADIUS]⟩).1

end BtcGame
